import Mathlib

/-!
# Verification of the Spicy plugin compilation driver

Shallow embedding of `src/compiler/driver.cc` / `include/compiler/driver.h`
(the `spicy::zeek::Driver` class): the type-metadata registry, the two AST
extraction passes, the glue-compilation latch, and `loadFile` path
resolution and extension dispatch.

Modelling conventions:
- `hilti::ID` is a string (its ordering, used by the `std::map` keying the
  registry, is lexicographic string comparison).
- `std::map<hilti::ID, TypeInfo> _types` is an association list kept
  strictly sorted by key; `mapInsert` is `operator[]` assignment
  (insert-or-replace at the ordered position) and `mapFind` is `find`.
  Iterating the list is exactly `std::map` iteration order.
- The `hilti::Type` payload is reduced to the structure the driver
  inspects: whether the type is an enum, a unit, or anything else, plus an
  opaque payload to keep distinct definitions distinct.
- External collaborators (filesystem, `hilti::util::findInPaths`, the glue
  compiler's `loadEvtFile`/`compile`/`exportedIDs`, the base driver's
  `addInput`) are modelled at their documented interface boundary by an
  `Env` of oracles; the driver code under verification is translated
  statement by statement.
-/

namespace SpicyZeek

/-- Fully-qualified identifiers (`hilti::ID`): rendered strings, compared
lexicographically as `std::map` does. -/
abbrev ID := String

/-- Constructor `hilti::ID(module, id)`: qualify a local id by its module. -/
def qualifyID (module localId : ID) : ID := module ++ "::" ++ localId

/-- The slice of `hilti::Type` the driver inspects: enum vs unit vs other,
with an opaque payload standing for the rest of the type structure. -/
inductive HiltiType where
  | enum (payload : Nat)
  | unit (payload : Nat)
  | other (payload : Nat)
deriving DecidableEq

/-- Enumeration `hilti::declaration::Linkage`. -/
inductive Linkage where
  | Init
  | PreInit
  | Struct
  | Private
  | Public
deriving DecidableEq

/-- Record `spicy::zeek::TypeInfo` (include/compiler/driver.h). -/
structure TypeInfo where
  id : ID
  type : HiltiType
  linkage : Linkage
  is_resolved : Bool
  module_id : ID
  module_path : String
deriving DecidableEq

/-- A top-level type declaration of a module
(`hilti::declaration::Type`). -/
structure Decl where
  id : ID
  type : HiltiType
  linkage : Linkage
deriving DecidableEq

/-- The slice of `hilti::Unit` the hooks read: module id, originating
path, file-extension tag and the top-level type declarations. -/
structure HiltiUnit where
  id : ID
  path : String
  extension : String
  decls : List Decl
deriving DecidableEq

/-- The internal/built-in modules skipped by `VisitorTypes::operator()`
(driver.cc line 45). -/
def skippedModule (module : ID) : Bool :=
  module == "hilti" || module == "spicy_rt" || module == "zeek_rt"

/-- The `TypeInfo` the visitor emplaces for one declaration
(driver.cc lines 48-56). -/
def makeTypeInfo (module : ID) (path : String) (is_resolved : Bool) (d : Decl) : TypeInfo :=
  { id := qualifyID module d.id
    type := d.type
    linkage := d.linkage
    is_resolved := is_resolved
    module_id := module
    module_path := path }

/-- Visitor `VisitorTypes`: the list of `TypeInfo`s collected by one walk over a
module's declarations (the per-declaration skip test of driver.cc line 45
uses the visitor's fixed module id). -/
def visitorTypes (module : ID) (path : String) (is_resolved : Bool) (decls : List Decl) :
    List TypeInfo :=
  decls.filterMap fun d =>
    if skippedModule module then none
    else some (makeTypeInfo module path is_resolved d)

/-- Lexicographic comparison of character lists by code point: the
`std::map` key order on rendered `hilti::ID`s. -/
def charListLtb : List Char → List Char → Bool
  | [], [] => false
  | [], _ :: _ => true
  | _ :: _, [] => false
  | a :: as, b :: bs =>
    if a.toNat < b.toNat then true
    else if b.toNat < a.toNat then false
    else charListLtb as bs

/-- Comparison `operator<` on `hilti::ID`: lexicographic string comparison. -/
def idLtb (a b : ID) : Bool := charListLtb a.data b.data

/-- Operation `std::map` insert-or-assign (`_types[k] = v`) on the sorted
association list. -/
def mapInsert (k : ID) (v : TypeInfo) : List (ID × TypeInfo) → List (ID × TypeInfo)
  | [] => [(k, v)]
  | (k', v') :: m =>
    if idLtb k k' then (k, v) :: (k', v') :: m
    else if k = k' then (k, v) :: m
    else (k', v') :: mapInsert k v m

/-- Operation `std::map::find` on the association list. -/
def mapFind (k : ID) : List (ID × TypeInfo) → Option TypeInfo
  | [] => none
  | (k', v') :: m => if k = k' then some v' else mapFind k m

/-- State of `spicy::zeek::Driver` plus the boundary state of its external
collaborators that the driver mutates through them (the glue compiler's
loaded-EVT/export/module lists, the base driver's input queue, and an
instrumentation counter for how often the glue compiler's `compile()` was
executed). -/
structure Driver where
  _types : List (ID × TypeInfo)
  _public_enums : List TypeInfo
  _need_glue : Bool
  glue_exports : List (ID × ID)
  glue_modules : List (ID × String)
  inputs : List String
  evt_loaded : List String
  glue_compile_count : Nat
deriving DecidableEq

/-- A fresh driver: empty registry and lists, `_need_glue = true`. -/
def initDriver : Driver :=
  { _types := []
    _public_enums := []
    _need_glue := true
    glue_exports := []
    glue_modules := []
    inputs := []
    evt_loaded := []
    glue_compile_count := 0 }

/-- Method `Driver::lookupType` (driver.cc lines 199-204). -/
def Driver.lookupType (s : Driver) (id : ID) : Except String TypeInfo :=
  match mapFind id s._types with
  | some x => Except.ok x
  | none => Except.error ("unknown type " ++ id)

/-- Method `Driver::types` (driver.cc lines 206-214): all registry records in
`std::map` iteration order. This is `allTypes(exportedOnly=false)`. -/
def Driver.types (s : Driver) : List TypeInfo :=
  s._types.map Prod.snd

/-- Method `Driver::exportedTypes` (driver.cc lines 216-233): the glue
coordinator's export list resolved against the registry (unknown names are
logged and skipped), followed by the auto-exported public enums. This is
`allTypes(exportedOnly=true)`. -/
def Driver.exportedTypes (s : Driver) : List (TypeInfo × ID) :=
  (s.glue_exports.filterMap fun e =>
    match mapFind e.1 s._types with
    | some t => some (t, e.2)
    | none => none)
  ++ s._public_enums.map fun t => (t, t.id)

/-- Is this type an enum (`type.tryAs<hilti::type::Enum>()` succeeding)? -/
def isEnumType : HiltiType → Bool
  | HiltiType.enum _ => true
  | _ => false

/-- The loop body of `hookNewASTPreCompilation` for one collected
`TypeInfo` (driver.cc lines 247-257): record it in the registry, and if it
is a public enum also push it onto `_public_enums`. -/
def Driver.recordPreType (s : Driver) (ti : TypeInfo) : Driver :=
  let s1 := { s with _types := mapInsert ti.id ti s._types }
  if isEnumType ti.type && (ti.linkage == Linkage.Public)
  then { s1 with _public_enums := s1._public_enums ++ [ti] }
  else s1

/-- The loop body of `hookNewASTPostCompilation` for one collected
`TypeInfo` (driver.cc lines 272-276): record it in the registry. -/
def Driver.recordPostType (s : Driver) (ti : TypeInfo) : Driver :=
  { s with _types := mapInsert ti.id ti s._types }

/-- Hook `Driver::hookNewASTPreCompilation` (driver.cc lines 235-258). -/
def Driver.hookNewASTPreCompilation (s : Driver) (u : HiltiUnit) : Driver :=
  if u.extension ≠ ".spicy" then s
  else if u.path = "" then s
  else (visitorTypes u.id u.path false u.decls).foldl Driver.recordPreType s

/-- Hook `Driver::hookNewASTPostCompilation` (driver.cc lines 260-279); the
final `_glue->addSpicyModule(...)` is modelled as appending to the glue
compiler's module list. -/
def Driver.hookNewASTPostCompilation (s : Driver) (u : HiltiUnit) : Driver :=
  if u.extension ≠ ".spicy" then s
  else if u.path = "" then s
  else
    let s1 := (visitorTypes u.id u.path true u.decls).foldl Driver.recordPostType s
    { s1 with glue_modules := s1.glue_modules ++ [(u.id, u.path)] }

/-- Hook `Driver::hookCompilationFinished` (driver.cc lines 281-291).
`glueOk` is the outcome of the external glue compiler's `compile()`; the
instrumentation counter records that it was executed. `none` is success,
`some msg` the returned error. -/
def Driver.hookCompilationFinished (s : Driver) (glueOk : Bool) : Driver × Option String :=
  if !s._need_glue then (s, none)
  else
    let s1 := { s with _need_glue := false, glue_compile_count := s.glue_compile_count + 1 }
    if glueOk then (s1, none) else (s1, some "glue compilation failed")

/-- Boundary state of the external world seen by `loadFile`: the
filesystem, the configured library search paths, and oracles for the
outcomes of the external `addInput` and `loadEvtFile` calls (with the
export entries a successfully loaded EVT file contributes). -/
structure Env where
  files : List String
  library_paths : List String
  addInputOk : String → Bool
  evtOk : String → Bool
  evtExports : String → List (ID × ID)

/-- Predicate `hilti::rt::filesystem::exists`. -/
def existsFile (env : Env) (p : String) : Bool := env.files.contains p

/-- Split a character list at every occurrence of a separator character
(the list of path components for separator `/`). -/
def splitOnChar (sep : Char) : List Char → List (List Char)
  | [] => [[]]
  | c :: cs =>
    match splitOnChar sep cs with
    | [] => if c = sep then [[], []] else [[c]]
    | h :: t => if c = sep then [] :: h :: t else (c :: h) :: t

/-- Join character lists with a separator character. -/
def joinWith (sep : Char) : List (List Char) → List Char
  | [] => []
  | [x] => x
  | x :: y :: t => x ++ sep :: joinWith sep (y :: t)

/-- Predicate `path::is_relative()`: the path does not start with a root. -/
def isRelativePath (p : String) : Bool := !(p.data.take 1 == ['/'])

/-- Concatenation `operator/` on paths. -/
def joinPath (a b : String) : String := a ++ "/" ++ b

/-- Modelled boundary of `hilti::util::findInPaths` (spec section 4.1):
search the ordered library paths, first existing match wins. -/
def findInPaths (env : Env) (file : String) : Option String :=
  env.library_paths.findSome? fun d =>
    if existsFile env (joinPath d file) then some (joinPath d file) else none

/-- One step of path normalization: drop `.` and empty components, fold
`..` against a preceding component (components as character lists, in
reverse accumulator order). -/
def normalizeComponents (acc : List (List Char)) : List (List Char) → List (List Char)
  | [] => acc.reverse
  | c :: rest =>
    if c = [] ∨ c = ['.'] then normalizeComponents acc rest
    else if c = ['.', '.'] then
      match acc with
      | [] => normalizeComponents [['.', '.']] rest
      | a :: tail =>
        if a = ['.', '.'] then normalizeComponents (c :: a :: tail) rest
        else normalizeComponents tail rest
    else normalizeComponents (c :: acc) rest

/-- Modelled boundary of `hilti::util::normalizePath` (spec section 4.1):
resolve `.` and `..`, stable on already-normal paths. -/
def normalizePath (p : String) : String :=
  let comps := normalizeComponents [] (splitOnChar '/' p.data)
  let body := joinWith '/' comps
  if p.data.take 1 = ['/'] then String.mk ('/' :: body)
  else if body = [] then "." else String.mk body

/-- The last path component, as characters. -/
def fileName (p : String) : List Char := (splitOnChar '/' p.data).getLastD []

/-- Accessor `std::filesystem::path::extension()`: the trailing `.xyz` of the last
component, empty for dotless names, for `.`/`..`, and for a
leading-dot-only name like `.hidden`. -/
def pathExtension (p : String) : String :=
  let n := fileName p
  if n = ['.'] ∨ n = ['.', '.'] then ""
  else
    match splitOnChar '.' n with
    | [] => ""
    | [_] => ""
    | parts =>
      if parts.length = 2 ∧ n.take 1 = ['.'] then ""
      else String.mk ('.' :: parts.getLastD [])

/-- The requested file after the `relative_to` adjustment of
driver.cc lines 128-131: replaced by `relative_to / file` only when that
candidate exists. -/
def candidateFile (env : Env) (file relative_to : String) : String :=
  if relative_to ≠ "" ∧ isRelativePath file ∧ existsFile env (joinPath relative_to file)
  then joinPath relative_to file else file

/-- The path-resolution half of `loadFile` (driver.cc lines 128-138):
the candidate itself if it exists, else the first search-path match. -/
def resolveFile (env : Env) (file relative_to : String) : Option String :=
  let f := candidateFile env file relative_to
  if existsFile env f then some f else findInPaths env f

/-- Boundary of `spicy::Driver::addInput`: on success the path is
queued as a compiler input, on failure an error is returned. -/
def Driver.addInput (s : Driver) (env : Env) (p : String) : Driver × Option String :=
  if env.addInputOk p then ({ s with inputs := s.inputs ++ [p] }, none)
  else (s, some ("error loading " ++ p))

/-- Method `Driver::loadFile` (driver.cc lines 126-184): resolve, normalize,
dispatch on the extension. `none` is success, `some msg` the returned
error message. -/
def Driver.loadFile (s : Driver) (env : Env) (file relative_to : String) :
    Driver × Option String :=
  match resolveFile env file relative_to with
  | none => (s, some ("Spicy plugin cannot find file " ++ candidateFile env file relative_to))
  | some f =>
    let rpath := normalizePath f
    let ext := pathExtension rpath
    if ext = ".evt" then
      if env.evtOk rpath then
        ({ s with evt_loaded := s.evt_loaded ++ [rpath],
                  glue_exports := s.glue_exports ++ env.evtExports rpath }, none)
      else (s, some ("error loading EVT file " ++ rpath))
    else if ext = ".spicy" then s.addInput env rpath
    else if ext = ".hlt" then s.addInput env rpath
    else if ext = ".hlto" then s.addInput env rpath
    else if ext = ".cc" ∨ ext = ".cxx" then s.addInput env rpath
    else (s, some ("unknown file type passed to Spicy loader: " ++ rpath))

/-- The driver-state-mutating entry points: the two AST hooks and the
compilation-finished hook (invoked re-entrantly by the underlying
compiler during `compile()`), and `loadFile` calls from the host. -/
inductive Event where
  | pre (u : HiltiUnit)
  | post (u : HiltiUnit)
  | finish (glueOk : Bool)
  | load (env : Env) (file relative_to : String)

/-- Apply one event to the driver state (error returns discard nothing:
the state the call left behind is kept, as in the C++ driver). -/
def applyEvent (s : Driver) : Event → Driver
  | Event.pre u => s.hookNewASTPreCompilation u
  | Event.post u => s.hookNewASTPostCompilation u
  | Event.finish ok => (s.hookCompilationFinished ok).1
  | Event.load env f r => (s.loadFile env f r).1

/-- Apply a sequence of events in order. -/
def applyEvents (es : List Event) (s : Driver) : Driver :=
  es.foldl applyEvent s

/-- A driver state is reachable if some event sequence produces it from a
fresh driver. -/
def Reachable (s : Driver) : Prop :=
  ∃ es : List Event, applyEvents es initDriver = s

/-- The driver-state invariant maintained by every entry point: registry
keys agree with the stored record's name and no built-in module is
recorded; auto-exported enums are unresolved, from user modules, and have
a registry entry under their name; the registry is strictly sorted by
key; and the glue latch bounds the number of glue `compile()` runs. -/
def GoodState (s : Driver) : Prop :=
  (∀ kv ∈ s._types, kv.1 = kv.2.id ∧ skippedModule kv.2.module_id = false)
  ∧ (∀ ti ∈ s._public_enums,
      ti.is_resolved = false ∧ skippedModule ti.module_id = false
        ∧ mapFind ti.id s._types ≠ none)
  ∧ s._types.Pairwise (fun a b => idLtb a.1 b.1 = true)
  ∧ s.glue_compile_count + (if s._need_glue then 1 else 0) ≤ 1

/-- Fixture: a public enum declaration `Color`. -/
def colorDecl : Decl := { id := "Color", type := HiltiType.enum 0, linkage := Linkage.Public }

/-- Fixture: a public unit (parser) declaration `Msg`. -/
def msgDecl : Decl := { id := "Msg", type := HiltiType.unit 0, linkage := Linkage.Public }

/-- Fixture: a Spicy module `a` declaring `Color` and `Msg`. -/
def unitA : HiltiUnit :=
  { id := "a", path := "a.spicy", extension := ".spicy", decls := [colorDecl, msgDecl] }

/-- Fixture: driver state after the pre- and post-resolution passes over
module `a` (the hook sequence of a successful `compile()` of `a.spicy`). -/
def afterCompileA : Driver := applyEvents [Event.pre unitA, Event.post unitA] initDriver

/-- Fixture: a private declaration `B` (inserted first). -/
def bDecl : Decl := { id := "B", type := HiltiType.other 0, linkage := Linkage.Private }

/-- Fixture: a private declaration `A` (inserted second). -/
def aDecl : Decl := { id := "A", type := HiltiType.other 1, linkage := Linkage.Private }

/-- Fixture: a Spicy module `m` declaring `B` before `A`. -/
def unitM : HiltiUnit :=
  { id := "m", path := "m.spicy", extension := ".spicy", decls := [bDecl, aDecl] }

/-- Fixture: an environment whose filesystem holds only `a.txt`. -/
def envTxt : Env :=
  { files := ["a.txt"], library_paths := [], addInputOk := fun _ => true,
    evtOk := fun _ => true, evtExports := fun _ => [] }

/-- Fixture: an environment with an empty filesystem and no search paths. -/
def envEmpty : Env :=
  { files := [], library_paths := [], addInputOk := fun _ => true,
    evtOk := fun _ => true, evtExports := fun _ => [] }

/-- Fixture: a unit with extension `.hlt`. -/
def hltUnit : HiltiUnit :=
  { id := "x", path := "x.hlt", extension := ".hlt",
    decls := [{ id := "T", type := HiltiType.enum 7, linkage := Linkage.Public }] }

/-- Fixture: a unit whose module id is the built-in `hilti`. -/
def hiltiUnit : HiltiUnit :=
  { id := "hilti", path := "hilti.spicy", extension := ".spicy",
    decls := [{ id := "T", type := HiltiType.other 0, linkage := Linkage.Public }] }

/-- Fixture: driver state after hooks over the built-in module and
module `a`. -/
def afterMixed : Driver :=
  applyEvents [Event.pre hiltiUnit, Event.pre unitA, Event.post unitA] initDriver

theorem charListLtb_trans (a : List Char) : ∀ b c : List Char,
    charListLtb a b = true → charListLtb b c = true → charListLtb a c = true := by
  induction a with
  | nil =>
    intro b c h1 h2
    cases c with
    | nil =>
      cases b with
      | nil => simp [charListLtb] at h1
      | cons y ys => simp [charListLtb] at h2
    | cons z zs => rfl
  | cons x xs ih =>
    intro b c h1 h2
    cases b with
    | nil => simp [charListLtb] at h1
    | cons y ys =>
      cases c with
      | nil => simp [charListLtb] at h2
      | cons z zs =>
        simp only [charListLtb] at h1 h2 ⊢
        by_cases hxy : x.toNat < y.toNat
        · by_cases hyz : y.toNat < z.toNat
          · rw [if_pos (Nat.lt_trans hxy hyz)]
          · by_cases hzy : z.toNat < y.toNat
            · rw [if_neg hyz, if_pos hzy] at h2
              exact absurd h2 (by simp)
            · have : x.toNat < z.toNat := by omega
              rw [if_pos this]
        · by_cases hyx : y.toNat < x.toNat
          · rw [if_neg hxy, if_pos hyx] at h1
            simp at h1
          · rw [if_neg hxy, if_neg hyx] at h1
            by_cases hyz : y.toNat < z.toNat
            · have : x.toNat < z.toNat := by omega
              rw [if_pos this]
            · by_cases hzy : z.toNat < y.toNat
              · rw [if_neg hyz, if_pos hzy] at h2
                exact absurd h2 (by simp)
              · rw [if_neg hyz, if_neg hzy] at h2
                have hxz : ¬x.toNat < z.toNat := by omega
                have hzx : ¬z.toNat < x.toNat := by omega
                rw [if_neg hxz, if_neg hzx]
                exact ih ys zs h1 h2

theorem Char.eq_of_toNat_eq {a b : Char} (h : a.toNat = b.toNat) : a = b := by
  apply Char.ext
  apply UInt32.ext
  exact h

theorem charListLtb_false_of_ne (a : List Char) : ∀ b : List Char,
    charListLtb a b = false → a ≠ b → charListLtb b a = true := by
  induction a with
  | nil =>
    intro b h1 h2
    cases b with
    | nil => exact absurd rfl h2
    | cons y ys => simp [charListLtb] at h1
  | cons x xs ih =>
    intro b h1 h2
    cases b with
    | nil => rfl
    | cons y ys =>
      simp only [charListLtb] at h1 ⊢
      by_cases hxy : x.toNat < y.toNat
      · rw [if_pos hxy] at h1
        exact absurd h1 (by simp)
      · by_cases hyx : y.toNat < x.toNat
        · rw [if_pos hyx]
        · have hx : x = y := Char.eq_of_toNat_eq (by omega)
          subst hx
          rw [if_neg hxy, if_neg hyx] at h1 ⊢
          exact ih ys h1 (fun h => h2 (by rw [h]))

theorem idLtb_trans (a b c : ID) (h1 : idLtb a b = true) (h2 : idLtb b c = true) :
    idLtb a c = true :=
  charListLtb_trans a.data b.data c.data h1 h2

theorem idLtb_false_of_ne (a b : ID) (h1 : idLtb a b = false) (h2 : a ≠ b) :
    idLtb b a = true := by
  refine charListLtb_false_of_ne a.data b.data h1 ?_
  intro h
  apply h2
  cases a
  cases b
  exact congrArg String.mk (by simpa using h)

theorem mapFind_mapInsert (k j : ID) (v : TypeInfo) (m : List (ID × TypeInfo)) :
    mapFind j (mapInsert k v m) = if j = k then some v else mapFind j m := by
  induction m with
  | nil => simp [mapInsert, mapFind]
  | cons hd tl ih =>
    obtain ⟨k', v'⟩ := hd
    by_cases h1 : idLtb k k' = true
    · by_cases h2 : j = k <;> simp [mapInsert, mapFind, h1, h2]
    · by_cases h2 : k = k'
      · subst h2
        by_cases h3 : j = k <;> simp [mapInsert, mapFind, h1, h3]
      · by_cases h3 : j = k'
        · subst h3
          have : j ≠ k := fun h => h2 h.symm
          simp [mapInsert, mapFind, h1, h2, this]
        · simp [mapInsert, mapFind, h1, h2, h3, ih]

theorem mem_mapInsert (k : ID) (v : TypeInfo) (m : List (ID × TypeInfo)) (kv : ID × TypeInfo)
    (h : kv ∈ mapInsert k v m) : kv = (k, v) ∨ kv ∈ m := by
  induction m with
  | nil => simpa [mapInsert] using h
  | cons hd tl ih =>
    obtain ⟨k', v'⟩ := hd
    simp only [mapInsert] at h
    split at h
    · rcases List.mem_cons.mp h with h' | h'
      · exact Or.inl h'
      · exact Or.inr h'
    · split at h
      · rcases List.mem_cons.mp h with h' | h'
        · exact Or.inl h'
        · exact Or.inr (List.mem_cons_of_mem _ h')
      · rcases List.mem_cons.mp h with h' | h'
        · exact Or.inr (h' ▸ List.mem_cons_self _ _)
        · rcases ih h' with h'' | h''
          · exact Or.inl h''
          · exact Or.inr (List.mem_cons_of_mem _ h'')

theorem mapInsert_sorted (k : ID) (v : TypeInfo) (m : List (ID × TypeInfo))
    (h : m.Pairwise (fun a b => idLtb a.1 b.1 = true)) :
    (mapInsert k v m).Pairwise (fun a b => idLtb a.1 b.1 = true) := by
  induction m with
  | nil => simp [mapInsert]
  | cons hd tl ih =>
    obtain ⟨k', v'⟩ := hd
    rw [List.pairwise_cons] at h
    obtain ⟨hhd, htl⟩ := h
    by_cases h1 : idLtb k k' = true
    · rw [mapInsert, if_pos h1, List.pairwise_cons]
      constructor
      · intro b hb
        rcases List.mem_cons.mp hb with rfl | hb
        · exact h1
        · exact idLtb_trans _ _ _ h1 (hhd b hb)
      · exact List.pairwise_cons.mpr ⟨hhd, htl⟩
    · by_cases h2 : k = k'
      · subst h2
        rw [mapInsert, if_neg h1, if_pos rfl, List.pairwise_cons]
        exact ⟨hhd, htl⟩
      · rw [mapInsert, if_neg h1, if_neg h2, List.pairwise_cons]
        have h1f : idLtb k k' = false := by
          cases hx : idLtb k k'
          · rfl
          · exact absurd hx h1
        constructor
        · intro b hb
          rcases mem_mapInsert k v tl b hb with rfl | hb
          · exact idLtb_false_of_ne _ _ h1f h2
          · exact hhd b hb
        · exact ih htl

theorem visitorTypes_eq_map (module : ID) (path : String) (r : Bool) (ds : List Decl)
    (hm : skippedModule module = false) :
    visitorTypes module path r ds = ds.map (makeTypeInfo module path r) := by
  induction ds with
  | nil => rfl
  | cons d ds ih =>
    simp only [visitorTypes, List.filterMap_cons, hm, Bool.false_eq_true, if_false,
      List.map_cons] at ih ⊢
    rw [ih]

theorem visitorTypes_mem (module : ID) (path : String) (r : Bool) (ds : List Decl)
    (ti : TypeInfo) (h : ti ∈ visitorTypes module path r ds) :
    ti.module_id = module ∧ ti.is_resolved = r ∧ skippedModule module = false := by
  obtain ⟨d, _, hd⟩ := List.mem_filterMap.mp h
  cases hm : skippedModule module
  · rw [hm] at hd
    simp only [Bool.false_eq_true, if_false, Option.some.injEq] at hd
    subst hd
    exact ⟨rfl, rfl, rfl⟩
  · rw [hm] at hd
    simp at hd

theorem types_foldl_recordPre (L : List TypeInfo) (s : Driver) :
    (L.foldl Driver.recordPreType s)._types
      = L.foldl (fun m ti => mapInsert ti.id ti m) s._types := by
  induction L generalizing s with
  | nil => rfl
  | cons a L ih =>
    rw [List.foldl_cons, List.foldl_cons, ih]
    unfold Driver.recordPreType
    by_cases h : isEnumType a.type && (a.linkage == Linkage.Public) <;> simp [h]

theorem enums_foldl_recordPre (L : List TypeInfo) (s : Driver) :
    (L.foldl Driver.recordPreType s)._public_enums
      = s._public_enums
        ++ L.filter (fun ti => isEnumType ti.type && (ti.linkage == Linkage.Public)) := by
  induction L generalizing s with
  | nil => simp
  | cons a L ih =>
    rw [List.foldl_cons, ih, List.filter_cons]
    unfold Driver.recordPreType
    by_cases h : isEnumType a.type && (a.linkage == Linkage.Public) <;> simp [h]

theorem types_foldl_recordPost (L : List TypeInfo) (s : Driver) :
    (L.foldl Driver.recordPostType s)._types
      = L.foldl (fun m ti => mapInsert ti.id ti m) s._types := by
  induction L generalizing s with
  | nil => rfl
  | cons a L ih =>
    rw [List.foldl_cons, List.foldl_cons, ih]
    rfl

theorem mapFind_foldl_not_mem (L : List TypeInfo) (m : List (ID × TypeInfo)) (k : ID)
    (h : k ∉ L.map TypeInfo.id) :
    mapFind k (L.foldl (fun m ti => mapInsert ti.id ti m) m) = mapFind k m := by
  induction L generalizing m with
  | nil => rfl
  | cons a L ih =>
    simp only [List.map_cons, List.mem_cons, not_or] at h
    rw [List.foldl_cons, ih _ h.2, mapFind_mapInsert, if_neg h.1]

theorem mapFind_foldl_mem (L : List TypeInfo) (m : List (ID × TypeInfo)) (ti : TypeInfo)
    (hnd : (L.map TypeInfo.id).Nodup) (h : ti ∈ L) :
    mapFind ti.id (L.foldl (fun m ti => mapInsert ti.id ti m) m) = some ti := by
  induction L generalizing m with
  | nil => cases h
  | cons a L ih =>
    rw [List.map_cons, List.nodup_cons] at hnd
    rcases List.mem_cons.mp h with rfl | h'
    · rw [List.foldl_cons, mapFind_foldl_not_mem L _ ti.id hnd.1,
        mapFind_mapInsert, if_pos rfl]
    · rw [List.foldl_cons]
      exact ih _ hnd.2 h'

theorem goodState_init : GoodState initDriver := by
  refine ⟨?_, ?_, ?_, ?_⟩ <;> simp [initDriver, GoodState]

theorem goodState_recordPreType (s : Driver) (ti : TypeInfo) (h : GoodState s)
    (hm : skippedModule ti.module_id = false) (hr : ti.is_resolved = false) :
    GoodState (s.recordPreType ti) := by
  obtain ⟨h1, h2, h3, h4⟩ := h
  have key1 : ∀ kv ∈ mapInsert ti.id ti s._types, kv.1 = kv.2.id
      ∧ skippedModule kv.2.module_id = false := by
    intro kv hkv
    rcases mem_mapInsert _ _ _ _ hkv with rfl | hkv'
    · exact ⟨rfl, hm⟩
    · exact h1 kv hkv'
  have key2 : ∀ tj ∈ s._public_enums,
      tj.is_resolved = false ∧ skippedModule tj.module_id = false
        ∧ mapFind tj.id (mapInsert ti.id ti s._types) ≠ none := by
    intro tj htj
    obtain ⟨ha, hb, hc⟩ := h2 tj htj
    refine ⟨ha, hb, ?_⟩
    rw [mapFind_mapInsert]
    by_cases hj : tj.id = ti.id <;> simp [hj, hc]
  have key3 : (mapInsert ti.id ti s._types).Pairwise (fun a b => idLtb a.1 b.1 = true) :=
    mapInsert_sorted _ _ _ h3
  have keyti : mapFind ti.id (mapInsert ti.id ti s._types) ≠ none := by
    rw [mapFind_mapInsert, if_pos rfl]
    simp
  by_cases hpe : (isEnumType ti.type && (ti.linkage == Linkage.Public)) = true
  · have hstep : s.recordPreType ti
        = { s with _types := mapInsert ti.id ti s._types,
                   _public_enums := s._public_enums ++ [ti] } := by
      simp [Driver.recordPreType, hpe]
    rw [hstep]
    refine ⟨key1, ?_, key3, h4⟩
    intro tj htj
    rcases List.mem_append.mp htj with htj' | htj'
    · exact key2 tj htj'
    · rw [List.mem_singleton.mp htj']
      exact ⟨hr, hm, keyti⟩
  · have hstep : s.recordPreType ti
        = { s with _types := mapInsert ti.id ti s._types } := by
      simp [Driver.recordPreType, hpe]
    rw [hstep]
    exact ⟨key1, key2, key3, h4⟩

theorem goodState_recordPostType (s : Driver) (ti : TypeInfo) (h : GoodState s)
    (hm : skippedModule ti.module_id = false) :
    GoodState (s.recordPostType ti) := by
  obtain ⟨h1, h2, h3, h4⟩ := h
  refine ⟨?_, ?_, mapInsert_sorted _ _ _ h3, h4⟩
  · intro kv hkv
    rcases mem_mapInsert _ _ _ _ hkv with rfl | hkv'
    · exact ⟨rfl, hm⟩
    · exact h1 kv hkv'
  · intro tj htj
    obtain ⟨ha, hb, hc⟩ := h2 tj htj
    refine ⟨ha, hb, ?_⟩
    show mapFind tj.id (mapInsert ti.id ti s._types) ≠ none
    rw [mapFind_mapInsert]
    by_cases hj : tj.id = ti.id <;> simp [hj, hc]

theorem loadFile_frame (s : Driver) (env : Env) (f r : String) :
    ((s.loadFile env f r).1)._types = s._types
      ∧ ((s.loadFile env f r).1)._public_enums = s._public_enums
      ∧ ((s.loadFile env f r).1)._need_glue = s._need_glue
      ∧ ((s.loadFile env f r).1).glue_compile_count = s.glue_compile_count := by
  unfold Driver.loadFile
  cases hres : resolveFile env f r with
  | none => exact ⟨rfl, rfl, rfl, rfl⟩
  | some p =>
    simp only
    split_ifs <;>
      first
        | exact ⟨rfl, rfl, rfl, rfl⟩
        | (unfold Driver.addInput
           split_ifs <;> exact ⟨rfl, rfl, rfl, rfl⟩)

theorem goodState_hookPre (s : Driver) (u : HiltiUnit) (h : GoodState s) :
    GoodState (s.hookNewASTPreCompilation u) := by
  unfold Driver.hookNewASTPreCompilation
  split_ifs with h1 h2
  · exact h
  · exact h
  · have hall : ∀ ti ∈ visitorTypes u.id u.path false u.decls,
        skippedModule ti.module_id = false ∧ ti.is_resolved = false := by
      intro ti hti
      obtain ⟨hmod, hres, hskip⟩ := visitorTypes_mem _ _ _ _ _ hti
      exact ⟨hmod ▸ hskip, hres⟩
    revert h
    generalize visitorTypes u.id u.path false u.decls = L at hall
    induction L generalizing s with
    | nil => exact fun h => h
    | cons a L ih =>
      intro h
      rw [List.foldl_cons]
      have ha := hall a (List.mem_cons_self _ _)
      exact ih _ (fun ti hti => hall ti (List.mem_cons_of_mem _ hti))
        (goodState_recordPreType s a h ha.1 ha.2)

theorem goodState_hookPost (s : Driver) (u : HiltiUnit) (h : GoodState s) :
    GoodState (s.hookNewASTPostCompilation u) := by
  unfold Driver.hookNewASTPostCompilation
  split_ifs with h1 h2
  · exact h
  · exact h
  · have hall : ∀ ti ∈ visitorTypes u.id u.path true u.decls,
        skippedModule ti.module_id = false := by
      intro ti hti
      obtain ⟨hmod, _, hskip⟩ := visitorTypes_mem _ _ _ _ _ hti
      exact hmod ▸ hskip
    have hfold : GoodState ((visitorTypes u.id u.path true u.decls).foldl
        Driver.recordPostType s) := by
      revert h
      generalize visitorTypes u.id u.path true u.decls = L at hall
      induction L generalizing s with
      | nil => exact fun h => h
      | cons a L ih =>
        intro h
        rw [List.foldl_cons]
        exact ih _ (fun ti hti => hall ti (List.mem_cons_of_mem _ hti))
          (goodState_recordPostType s a h (hall a (List.mem_cons_self _ _)))
    obtain ⟨g1, g2, g3, g4⟩ := hfold
    exact ⟨g1, g2, g3, g4⟩

theorem goodState_finish (s : Driver) (ok : Bool) (h : GoodState s) :
    GoodState ((s.hookCompilationFinished ok).1) := by
  obtain ⟨h1, h2, h3, h4⟩ := h
  unfold Driver.hookCompilationFinished
  cases hng : s._need_glue with
  | false => simpa using ⟨h1, h2, h3, by simpa [hng] using h4⟩
  | true =>
    rw [hng] at h4
    rw [if_pos rfl] at h4
    simp only [hng, Bool.not_true, Bool.false_eq_true, if_false]
    have hcount : s.glue_compile_count = 0 := by omega
    cases ok <;>
      exact ⟨h1, h2, h3, by simp [hcount]⟩

theorem goodState_load (s : Driver) (env : Env) (f r : String) (h : GoodState s) :
    GoodState ((s.loadFile env f r).1) := by
  obtain ⟨e1, e2, e3, e4⟩ := loadFile_frame s env f r
  obtain ⟨h1, h2, h3, h4⟩ := h
  refine ⟨?_, ?_, ?_, ?_⟩
  · rw [e1]; exact h1
  · rw [e2]
    intro ti hti
    obtain ⟨ha, hb, hc⟩ := h2 ti hti
    rw [e1]
    exact ⟨ha, hb, hc⟩
  · rw [e1]; exact h3
  · rw [e3, e4]; exact h4

theorem goodState_applyEvent (s : Driver) (e : Event) (h : GoodState s) :
    GoodState (applyEvent s e) := by
  cases e with
  | pre u => exact goodState_hookPre s u h
  | post u => exact goodState_hookPost s u h
  | finish ok => exact goodState_finish s ok h
  | load env f r => exact goodState_load s env f r h

theorem goodState_applyEvents (es : List Event) (s : Driver) (h : GoodState s) :
    GoodState (applyEvents es s) := by
  induction es generalizing s with
  | nil => exact h
  | cons e es ih => exact ih _ (goodState_applyEvent s e h)

theorem goodState_reachable (s : Driver) (h : Reachable s) : GoodState s := by
  obtain ⟨es, rfl⟩ := h
  exact goodState_applyEvents es initDriver goodState_init

theorem mapFind_some_mem (k : ID) (m : List (ID × TypeInfo)) (t : TypeInfo)
    (h : mapFind k m = some t) : (k, t) ∈ m := by
  induction m with
  | nil => simp [mapFind] at h
  | cons hd tl ih =>
    obtain ⟨k', v'⟩ := hd
    by_cases hk : k = k'
    · subst hk
      simp only [mapFind, if_true, eq_self_iff_true, Option.some.injEq] at h
      rw [← h]
      exact List.mem_cons_self _ _
    · simp only [mapFind, if_neg hk] at h
      exact List.mem_cons_of_mem _ (ih h)

theorem hookPost_types (s : Driver) (u : HiltiUnit) (hext : u.extension = ".spicy")
    (hpath : u.path ≠ "") :
    (s.hookNewASTPostCompilation u)._types
      = (visitorTypes u.id u.path true u.decls).foldl
          (fun m ti => mapInsert ti.id ti m) s._types := by
  unfold Driver.hookNewASTPostCompilation
  rw [if_neg (not_not_intro hext), if_neg hpath]
  exact types_foldl_recordPost _ _

theorem hookPre_types (s : Driver) (u : HiltiUnit) (hext : u.extension = ".spicy")
    (hpath : u.path ≠ "") :
    (s.hookNewASTPreCompilation u)._types
      = (visitorTypes u.id u.path false u.decls).foldl
          (fun m ti => mapInsert ti.id ti m) s._types := by
  unfold Driver.hookNewASTPreCompilation
  rw [if_neg (not_not_intro hext), if_neg hpath]
  exact types_foldl_recordPre _ _

theorem hookPre_enums (s : Driver) (u : HiltiUnit) (hext : u.extension = ".spicy")
    (hpath : u.path ≠ "") :
    (s.hookNewASTPreCompilation u)._public_enums
      = s._public_enums ++ (visitorTypes u.id u.path false u.decls).filter
          (fun ti => isEnumType ti.type && (ti.linkage == Linkage.Public)) := by
  unfold Driver.hookNewASTPreCompilation
  rw [if_neg (not_not_intro hext), if_neg hpath]
  exact enums_foldl_recordPre _ _

/-- C1: if the post-resolution pass records a type for a fully-qualified
name, `lookupType` for that name afterwards returns exactly the
post-resolution record, with `is_resolved = true` — the post-pass insert
replaces any earlier (in particular pre-pass) entry keyed by the same
name, never the other way around. -/
theorem C1_post_pass_record_wins (s : Driver) (u : HiltiUnit) (d : Decl)
    (hext : u.extension = ".spicy") (hpath : u.path ≠ "")
    (hmod : skippedModule u.id = false)
    (hnd : (u.decls.map fun d0 => qualifyID u.id d0.id).Nodup)
    (hd : d ∈ u.decls) :
    (s.hookNewASTPostCompilation u).lookupType (qualifyID u.id d.id)
        = Except.ok (makeTypeInfo u.id u.path true d)
      ∧ (makeTypeInfo u.id u.path true d).is_resolved = true := by
  refine ⟨?_, rfl⟩
  have htypes := hookPost_types s u hext hpath
  have hvl := visitorTypes_eq_map u.id u.path true u.decls hmod
  have hmem : makeTypeInfo u.id u.path true d ∈ visitorTypes u.id u.path true u.decls := by
    rw [hvl]
    exact List.mem_map_of_mem _ hd
  have hnd' : ((visitorTypes u.id u.path true u.decls).map TypeInfo.id).Nodup := by
    rw [hvl, List.map_map]
    exact hnd
  unfold Driver.lookupType
  rw [htypes]
  have hkey : qualifyID u.id d.id = (makeTypeInfo u.id u.path true d).id := rfl
  rw [hkey, mapFind_foldl_mem _ _ _ hnd' hmem]

/-- Witness for C1: compiling module `a`, the post-pass record for
`a::Color` is what `lookupType` returns, resolved. -/
theorem C1_witness :
    (initDriver.hookNewASTPostCompilation unitA).lookupType (qualifyID "a" "Color")
        = Except.ok (makeTypeInfo "a" "a.spicy" true colorDecl)
      ∧ (makeTypeInfo "a" "a.spicy" true colorDecl).is_resolved = true :=
  C1_post_pass_record_wins initDriver unitA colorDecl rfl (by decide) (by decide)
    (by decide) (by decide)

/-- C2: for every public top-level enum declaration of a Spicy module
outside the built-in modules, the pre-resolution pass pushes an
auto-export record, and that enum appears in the exported-only listing
`exportedTypes` — for any state, in particular with no explicit export
directive in the glue coordinator's list. -/
theorem C2_enum_auto_export (s : Driver) (u : HiltiUnit) (d : Decl)
    (hext : u.extension = ".spicy") (hpath : u.path ≠ "")
    (hmod : skippedModule u.id = false) (hd : d ∈ u.decls)
    (henum : isEnumType d.type = true) (hpub : d.linkage = Linkage.Public) :
    makeTypeInfo u.id u.path false d ∈ (s.hookNewASTPreCompilation u)._public_enums
      ∧ (makeTypeInfo u.id u.path false d, qualifyID u.id d.id)
          ∈ (s.hookNewASTPreCompilation u).exportedTypes := by
  have henums := hookPre_enums s u hext hpath
  have hvl := visitorTypes_eq_map u.id u.path false u.decls hmod
  have hmemv : makeTypeInfo u.id u.path false d ∈ visitorTypes u.id u.path false u.decls := by
    rw [hvl]
    exact List.mem_map_of_mem _ hd
  have hfl : makeTypeInfo u.id u.path false d ∈ (visitorTypes u.id u.path false u.decls).filter
      (fun ti => isEnumType ti.type && (ti.linkage == Linkage.Public)) := by
    refine List.mem_filter.mpr ⟨hmemv, ?_⟩
    simp [makeTypeInfo, henum, hpub]
  have hmem : makeTypeInfo u.id u.path false d
      ∈ (s.hookNewASTPreCompilation u)._public_enums := by
    rw [henums]
    exact List.mem_append_right _ hfl
  refine ⟨hmem, ?_⟩
  unfold Driver.exportedTypes
  exact List.mem_append_right _ (List.mem_map_of_mem _ hmem)

/-- Witness for C2: loading module `a` (fresh driver, empty glue export
list), the enum `a::Color` is auto-exported. -/
theorem C2_witness :
    makeTypeInfo "a" "a.spicy" false colorDecl
        ∈ (initDriver.hookNewASTPreCompilation unitA)._public_enums
      ∧ (makeTypeInfo "a" "a.spicy" false colorDecl, qualifyID "a" "Color")
          ∈ (initDriver.hookNewASTPreCompilation unitA).exportedTypes :=
  C2_enum_auto_export initDriver unitA colorDecl rfl (by decide) (by decide)
    (by decide) rfl rfl

/-- C3 counterexample: after compiling module `a` (pre pass then post
pass), the exported-only listing contains the stale pre-resolution record
for the auto-exported enum `a::Color`, while the full listing holds only
the overwritten resolved records — so the full listing is NOT a superset
of the exported-only listing at the level of type records. -/
theorem C3_counterexample :
    ¬ ∀ p ∈ afterCompileA.exportedTypes, p.1 ∈ afterCompileA.types := by
  decide

/-- C3 as amended: for every reachable driver state, every record in the
exported-only listing has its fully-qualified name present in the full
listing (superset at the level of type names; the records themselves can
differ in `is_resolved` because the auto-export list keeps pre-resolution
copies). -/
theorem C3_amended_name_superset (s : Driver) (h : Reachable s) :
    ∀ p ∈ s.exportedTypes, ∃ t ∈ s.types, t.id = p.1.id := by
  obtain ⟨h1, h2, _, _⟩ := goodState_reachable s h
  intro p hp
  unfold Driver.exportedTypes at hp
  rcases List.mem_append.mp hp with hglue | henum
  · obtain ⟨e, hemem, he⟩ := List.mem_filterMap.mp hglue
    cases hfind : mapFind e.1 s._types with
    | none => rw [hfind] at he; cases he
    | some t =>
      rw [hfind] at he
      obtain rfl := Option.some.inj he
      exact ⟨t, List.mem_map_of_mem _ (mapFind_some_mem _ _ _ hfind), rfl⟩
  · obtain ⟨ti, htimem, he⟩ := List.mem_map.mp henum
    obtain ⟨_, _, hfind⟩ := h2 ti htimem
    cases hmf : mapFind ti.id s._types with
    | none => exact absurd hmf hfind
    | some t =>
      have htmem : (ti.id, t) ∈ s._types := mapFind_some_mem _ _ _ hmf
      refine ⟨t, List.mem_map_of_mem _ htmem, ?_⟩
      have hp1 : p.1 = ti := by rw [← he]
      rw [hp1]
      exact ((h1 _ htmem).1).symm

/-- Witness for the amended C3 at the state after compiling module `a`:
the auto-exported pair for `a::Color` has its name in the full listing. -/
theorem C3_amended_witness :
    ∃ t ∈ afterCompileA.types,
      t.id = ((makeTypeInfo "a" "a.spicy" false colorDecl,
        qualifyID "a" "Color") : TypeInfo × ID).1.id :=
  C3_amended_name_superset afterCompileA ⟨[Event.pre unitA, Event.post unitA], rfl⟩
    (makeTypeInfo "a" "a.spicy" false colorDecl, qualifyID "a" "Color") (by decide)

/-- C4 counterexample: the pre-resolution pass over module `m` records
`m::B` first and `m::A` second (that is the registry insertion order),
but `types()` returns them as `[m::A, m::B]` — the `std::map` key order,
not the insertion order. -/
theorem C4_counterexample :
    (visitorTypes "m" "m.spicy" false [bDecl, aDecl]).map TypeInfo.id = ["m::B", "m::A"]
      ∧ ((applyEvents [Event.pre unitM] initDriver).types).map TypeInfo.id
          = ["m::A", "m::B"]
      ∧ ((applyEvents [Event.pre unitM] initDriver).types).map TypeInfo.id
          ≠ (visitorTypes "m" "m.spicy" false [bDecl, aDecl]).map TypeInfo.id := by
  decide

/-- C4 as amended: in every reachable driver state, `types()` returns the
records strictly sorted by fully-qualified name (the `std::map` key
order) — a deterministic order, but not the insertion order. -/
theorem C4_amended_sorted_order (s : Driver) (h : Reachable s) :
    s.types.Pairwise (fun a b => idLtb a.id b.id = true) := by
  obtain ⟨h1, _, h3, _⟩ := goodState_reachable s h
  unfold Driver.types
  rw [List.pairwise_map]
  refine h3.imp_of_mem ?_
  intro a b ha hb hr
  rw [← (h1 a ha).1, ← (h1 b hb).1]
  exact hr

/-- Witness for the amended C4 at the state after the pre pass over
module `m`. -/
theorem C4_amended_witness :
    (applyEvents [Event.pre unitM] initDriver).types.Pairwise
      (fun a b => idLtb a.id b.id = true) :=
  C4_amended_sorted_order _ ⟨[Event.pre unitM], rfl⟩

/-- C5: across any event sequence from a fresh driver, the external glue
compiler's `compile()` executes at most once; and once the `_need_glue`
latch is cleared, every further `hookCompilationFinished` invocation is a
no-op success. -/
theorem C5_glue_compiled_at_most_once :
    (∀ es : List Event, (applyEvents es initDriver).glue_compile_count ≤ 1)
      ∧ ∀ (s : Driver) (ok : Bool), s._need_glue = false →
          s.hookCompilationFinished ok = (s, none) := by
  constructor
  · intro es
    obtain ⟨_, _, _, h4⟩ := goodState_applyEvents es initDriver goodState_init
    split at h4 <;> omega
  · intro s ok hng
    unfold Driver.hookCompilationFinished
    rw [hng]
    rfl

/-- Witness for C5: two finished-hook invocations still run glue
compilation only once, and a cleared latch makes the hook a no-op. -/
theorem C5_witness :
    (applyEvents [Event.finish true, Event.finish true] initDriver).glue_compile_count ≤ 1
      ∧ Driver.hookCompilationFinished { initDriver with _need_glue := false } true
          = ({ initDriver with _need_glue := false }, none) :=
  ⟨C5_glue_compiled_at_most_once.1 _, C5_glue_compiled_at_most_once.2 _ true rfl⟩

/-- C6: whenever path resolution succeeds but the resolved file's
extension is none of `.evt`, `.spicy`, `.hlt`, `.hlto`, `.cc`, `.cxx`,
`loadFile` returns the `UnsupportedInput` error naming the offending
(normalized) path and leaves the driver state untouched — in particular
nothing is queued as a compiler input. -/
theorem C6_unsupported_extension_rejected (s : Driver) (env : Env) (file rel f : String)
    (hres : resolveFile env file rel = some f)
    (hext : pathExtension (normalizePath f) ∉
      ([".evt", ".spicy", ".hlt", ".hlto", ".cc", ".cxx"] : List String)) :
    s.loadFile env file rel
      = (s, some ("unknown file type passed to Spicy loader: " ++ normalizePath f)) := by
  simp only [List.mem_cons, List.not_mem_nil, or_false, not_or] at hext
  obtain ⟨e1, e2, e3, e4, e5, e6⟩ := hext
  unfold Driver.loadFile
  rw [hres]
  simp [e1, e2, e3, e4, e5, e6]

/-- Witness for C6: an existing `a.txt` is rejected as unsupported with
the driver state unchanged. -/
theorem C6_witness :
    initDriver.loadFile envTxt "a.txt" ""
      = (initDriver, some ("unknown file type passed to Spicy loader: "
          ++ normalizePath "a.txt")) :=
  C6_unsupported_extension_rejected initDriver envTxt "a.txt" "" "a.txt"
    (by decide) (by decide)

/-- C7: when neither the requested file (after the `relative_to`
adjustment) nor any search-path candidate exists, `loadFile` fails with
the `NotFound` error carrying the originally requested path, and the
driver state is untouched. -/
theorem C7_not_found_names_original (s : Driver) (env : Env) (file rel : String)
    (hres : resolveFile env file rel = none) :
    s.loadFile env file rel = (s, some ("Spicy plugin cannot find file " ++ file)) := by
  have hcand : candidateFile env file rel = file := by
    by_cases hc : rel ≠ "" ∧ isRelativePath file = true
        ∧ existsFile env (joinPath rel file) = true
    · exfalso
      have hc1 : candidateFile env file rel = joinPath rel file := by
        unfold candidateFile
        rw [if_pos hc]
      have hsome : resolveFile env file rel = some (joinPath rel file) := by
        unfold resolveFile
        rw [hc1]
        show (if existsFile env (joinPath rel file) = true then some (joinPath rel file)
              else findInPaths env (joinPath rel file)) = some (joinPath rel file)
        rw [if_pos hc.2.2]
      rw [hsome] at hres
      cases hres
    · unfold candidateFile
      rw [if_neg hc]
  unfold Driver.loadFile
  rw [hres, hcand]

/-- Witness for C7: `loadFile("missing.src")` with an empty filesystem
and no search paths fails referencing `missing.src`. -/
theorem C7_witness :
    initDriver.loadFile envEmpty "missing.src" ""
      = (initDriver, some ("Spicy plugin cannot find file " ++ "missing.src")) :=
  C7_not_found_names_original initDriver envEmpty "missing.src" "" (by decide)

/-- C8: in every reachable driver state, no record whose module is one of
the built-in modules `hilti`, `spicy_rt`, `zeek_rt` appears in the type
registry or in the enum auto-export list — both extraction passes skip
those declarations. -/
theorem C8_builtin_modules_never_recorded (s : Driver) (h : Reachable s) :
    (∀ ti ∈ s.types, skippedModule ti.module_id = false)
      ∧ ∀ ti ∈ s._public_enums, skippedModule ti.module_id = false := by
  obtain ⟨h1, h2, _, _⟩ := goodState_reachable s h
  constructor
  · intro ti hti
    obtain ⟨kv, hkv, rfl⟩ := List.mem_map.mp hti
    exact (h1 kv hkv).2
  · exact fun ti hti => (h2 ti hti).2.1

/-- Witness for C8 at a state whose event trace includes a pass over the
built-in `hilti` module: the records of module `a` are from a
non-built-in module (and the trace's `hilti` declarations were never
recorded). -/
theorem C8_witness :
    skippedModule (makeTypeInfo "a" "a.spicy" true colorDecl).module_id = false
      ∧ skippedModule (makeTypeInfo "a" "a.spicy" false colorDecl).module_id = false :=
  ⟨(C8_builtin_modules_never_recorded afterMixed
      ⟨[Event.pre hiltiUnit, Event.pre unitA, Event.post unitA], rfl⟩).1
        (makeTypeInfo "a" "a.spicy" true colorDecl) (by decide),
    (C8_builtin_modules_never_recorded afterMixed
      ⟨[Event.pre hiltiUnit, Event.pre unitA, Event.post unitA], rfl⟩).2
        (makeTypeInfo "a" "a.spicy" false colorDecl) (by decide)⟩

/-- C9: for a compiled unit whose extension is not `.spicy`, both AST
hooks return immediately, leaving the whole driver state (in particular
the type registry and the enum auto-export list) unchanged. -/
theorem C9_non_spicy_units_ignored (s : Driver) (u : HiltiUnit)
    (h : u.extension ≠ ".spicy") :
    s.hookNewASTPreCompilation u = s ∧ s.hookNewASTPostCompilation u = s := by
  constructor
  · unfold Driver.hookNewASTPreCompilation
    rw [if_pos h]
  · unfold Driver.hookNewASTPostCompilation
    rw [if_pos h]

/-- Witness for C9: a `.hlt` unit declaring a public enum contributes
nothing. -/
theorem C9_witness :
    initDriver.hookNewASTPreCompilation hltUnit = initDriver
      ∧ initDriver.hookNewASTPostCompilation hltUnit = initDriver :=
  C9_non_spicy_units_ignored initDriver hltUnit (by decide)

/-- C10: in every reachable driver state, every record in the enum
auto-export list still has `is_resolved = false` (entries are appended
only by the pre-resolution pass and never updated), and each such entry
is returned by `exportedTypes` paired with its own name. -/
theorem C10_auto_export_list_stays_unresolved (s : Driver) (h : Reachable s) :
    ∀ ti ∈ s._public_enums, ti.is_resolved = false ∧ (ti, ti.id) ∈ s.exportedTypes := by
  obtain ⟨_, h2, _, _⟩ := goodState_reachable s h
  intro ti hti
  refine ⟨(h2 ti hti).1, ?_⟩
  unfold Driver.exportedTypes
  exact List.mem_append_right _ (List.mem_map_of_mem _ hti)

/-- Witness for C10 after a full compile of module `a`: the auto-export
entry for `a::Color` is still the unresolved pre-pass record and is
returned by `exportedTypes`. -/
theorem C10_witness :
    (makeTypeInfo "a" "a.spicy" false colorDecl).is_resolved = false
      ∧ (makeTypeInfo "a" "a.spicy" false colorDecl,
          (makeTypeInfo "a" "a.spicy" false colorDecl).id) ∈ afterCompileA.exportedTypes :=
  C10_auto_export_list_stays_unresolved afterCompileA
    ⟨[Event.pre unitA, Event.post unitA], rfl⟩
    (makeTypeInfo "a" "a.spicy" false colorDecl) (by decide)
